import Mathlib

/-!
Verification of the vmdb2 GRUB step runner (`vmdb/plugins/grub_plugin.py`).

Python strings are modelled as `List Char` (`PyStr`).  Pure text
manipulation (`get_image_loop_device`, `set_grub_cmdline_config`,
`chroot_path`) is embedded as Lean functions on `PyStr`; the stateful
step runner (`run`, `mount`, `unmount`, `teardown`) is embedded as
explicit state passing over a `GState` record, with external commands
decided by an environment oracle and recorded as an effect trace.
-/

/-- Python `str` modelled as a list of characters. -/
abbrev PyStr := List Char

namespace GrubStepRunner

/-- Model of the `\d` character class of the regex in
`get_image_loop_device`, restricted to ASCII digits (Python's `\d`
additionally accepts non-ASCII Unicode digits, which we do not model). -/
def pyDigit (c : Char) : Bool := c.isDigit

/-- Faithful model of
`re.match('^/dev/mapper/(?P<loop>loop\d+)p\d+$', s)`, returning the
named group `loop` on success.  Per Python `re` semantics the final `$`
matches at the end of the string or just before a single newline at the
end of the string, so a trailing `'\n'` is accepted. -/
def matchLoopRe (s : PyStr) : Option PyStr :=
  match s.dropPrefix? "/dev/mapper/loop".data with
  | none => none
  | some r1 =>
    if (r1.span pyDigit).1 = [] then none
    else if (r1.span pyDigit).2.head? = some 'p' then
      if ((r1.span pyDigit).2.tail.span pyDigit).1 = [] then none
      else if ((r1.span pyDigit).2.tail.span pyDigit).2 = []
          ∨ ((r1.span pyDigit).2.tail.span pyDigit).2 = ['\n'] then
        some ("loop".data ++ (r1.span pyDigit).1)
      else none
    else none

/-- Embedding of `GrubStepRunner.get_image_loop_device`: the two
`assert` statements are modelled as `Except.error ()` (an
`AssertionError` aborts the caller). -/
def get_image_loop_device (partition_device : PyStr) : Except Unit PyStr :=
  if List.isPrefixOf "/dev/mapper/loop".data partition_device then
    match matchLoopRe partition_device with
    | some loop => Except.ok ("/dev/".data ++ loop)
    | none => Except.error ()
  else Except.error ()

/-- Spec-side predicate, written from the spec's words: a partition
device path "of the form `<mapper-prefix>/loop<N>p<M>`" with the mapper
path `/dev/mapper`, i.e. exactly `/dev/mapper/loop<digits>p<digits>`
with both digit runs nonempty and nothing after them. -/
def loopPartPatternSpec (s : PyStr) : Prop :=
  ∃ d1 d2 : PyStr, d1 ≠ [] ∧ d2 ≠ [] ∧ (∀ c ∈ d1, pyDigit c) ∧
    (∀ c ∈ d2, pyDigit c) ∧
    s = "/dev/mapper/loop".data ++ d1 ++ ('p' :: d2)

/-- Characters at which Python `str.splitlines` breaks a line: `\n`,
`\r` (with `\r\n` counting as one break), `\v`, `\f`, `\x1c`–`\x1e`,
`\x85`, U+2028 and U+2029. -/
def isPyLineBreak (c : Char) : Bool :=
  c = '\n' ∨ c = '\r' ∨ c = Char.ofNat 0x0b ∨ c = Char.ofNat 0x0c ∨
  c = Char.ofNat 0x1c ∨ c = Char.ofNat 0x1d ∨ c = Char.ofNat 0x1e ∨
  c = Char.ofNat 0x85 ∨ c = Char.ofNat 0x2028 ∨ c = Char.ofNat 0x2029

/-- Worker for `pySplitlines`: `acc` is the current line, reversed.
Called only on a nonempty remainder of a nonempty string. -/
def splitlinesGo : List Char → List Char → List PyStr
  | [], acc => [acc.reverse]
  | '\r' :: '\n' :: rest, acc =>
    acc.reverse :: (if rest = [] then [] else splitlinesGo rest [])
  | c :: rest, acc =>
    if isPyLineBreak c then
      acc.reverse :: (if rest = [] then [] else splitlinesGo rest [])
    else splitlinesGo rest (c :: acc)

/-- Model of Python `str.splitlines()` (without `keepends`). -/
def pySplitlines (s : PyStr) : List PyStr :=
  if s = [] then [] else splitlinesGo s []

/-- Model of Python `'\n'.join(lines)`. -/
def joinNL : List PyStr → PyStr
  | [] => []
  | [l] => l
  | l :: ls => l ++ '\n' :: joinNL ls

/-- The literal `'GRUB_CMDLINE_LINUX_DEFAULT'` filtered against in
`set_grub_cmdline_config`. -/
def grubCmdlineKey : PyStr := "GRUB_CMDLINE_LINUX_DEFAULT".data

/-- The `kernel_params` list hardcoded in `run`. -/
def kernel_params : List PyStr :=
  ["biosdevname=0".data, "net.ifnames=0".data, "consoleblank=0".data,
   "systemd.show_status=true".data]

/-- Model of Python `' '.join(params)` as used for `param_string`. -/
def joinSpace : List PyStr → PyStr
  | [] => []
  | [l] => l
  | l :: ls => l ++ ' ' :: joinSpace ls

/-- The single line appended by `set_grub_cmdline_config`:
`'GRUB_CMDLINE_LINUX_DEFAULT="{}"'.format(param_string)`. -/
def newGrubLine (params : List PyStr) : PyStr :=
  grubCmdlineKey ++ "=\"".data ++ joinSpace params ++ "\"".data

/-- Embedding of the text transformation performed by
`GrubStepRunner.set_grub_cmdline_config` on the contents of
`/etc/default/grub`: split into lines, drop every line starting with
`GRUB_CMDLINE_LINUX_DEFAULT`, append the new setting, join with `\n`
and add a trailing newline. -/
def set_grub_cmdline_config (params : List PyStr) (text : PyStr) : PyStr :=
  let lines := pySplitlines text
  let lines2 := lines.filter (fun line => ! grubCmdlineKey.isPrefixOf line)
  let lines3 := lines2 ++ [newGrubLine params]
  joinNL lines3 ++ ['\n']

/-- Worker for `splitSlash`: `acc` is the current component, reversed. -/
def splitSlashGo : List Char → List Char → List PyStr
  | [], acc => [acc.reverse]
  | '/' :: rest, acc => acc.reverse :: splitSlashGo rest []
  | c :: rest, acc => splitSlashGo rest (c :: acc)

/-- Model of Python `path.split('/')` (keeps empty components). -/
def splitSlash (s : PyStr) : List PyStr := splitSlashGo s []

/-- Model of Python `'/'.join(comps)`. -/
def joinSlash : List PyStr → PyStr
  | [] => []
  | [l] => l
  | l :: ls => l ++ '/' :: joinSlash ls

/-- The component loop of `posixpath.normpath`: `acc` holds `new_comps`
reversed, so Python's `append`/`pop` act on the head. -/
def normCompsGo (initial_slashes : Nat) : List PyStr → List PyStr → List PyStr
  | [], acc => acc.reverse
  | comp :: rest, acc =>
    if comp = [] ∨ comp = ".".data then normCompsGo initial_slashes rest acc
    else if comp ≠ "..".data ∨ (initial_slashes = 0 ∧ acc = []) ∨
        acc.head? = some "..".data then
      normCompsGo initial_slashes rest (comp :: acc)
    else
      match acc with
      | [] => normCompsGo initial_slashes rest []
      | _ :: acc2 => normCompsGo initial_slashes rest acc2

/-- Model of `posixpath.normpath` (Python `os.path.normpath` on POSIX). -/
def pyNormpath (p : PyStr) : PyStr :=
  if p = [] then ".".data
  else
    let initial_slashes : Nat :=
      if "/".data.isPrefixOf p then
        if "//".data.isPrefixOf p ∧ ¬ "///".data.isPrefixOf p then 2 else 1
      else 0
    let comps := normCompsGo initial_slashes (splitSlash p) []
    let joined := List.replicate initial_slashes '/' ++ joinSlash comps
    if joined = [] then ".".data else joined

/-- Model of `posixpath.join` for two arguments, as used in
`chroot_path`. -/
def pyJoin (a b : PyStr) : PyStr :=
  if "/".data.isPrefixOf b then b
  else if a = [] ∨ a.getLast? = some '/' then a ++ b
  else a ++ '/' :: b

/-- Embedding of `GrubStepRunner.chroot_path`:
`os.path.normpath(os.path.join(chroot, '.' + path))`. -/
def chroot_path (chroot path : PyStr) : PyStr :=
  pyNormpath (pyJoin chroot ('.' :: path))

/-- The mutable `state` object, restricted to the attributes this
plugin reads or writes.  `grub_mounts = none` models the attribute not
existing yet (the code probes it with `getattr`). -/
structure GState where
  mounts : List (PyStr × PyStr)
  parts : List (PyStr × PyStr)
  grub_mounts : Option (List PyStr)
deriving DecidableEq

/-- Python dict lookup on an association list (`state.mounts[tag]`,
`state.parts[tag]`): `none` models a `KeyError`. -/
def dictGet (m : List (PyStr × PyStr)) (k : PyStr) : Option PyStr :=
  (m.find? (fun kv => kv.1 = k)).map (fun kv => kv.2)

/-- A step mapping, restricted to the keys this plugin reads; a `none`
field models a missing key (reading it raises `KeyError`). -/
structure Step where
  grub : Option PyStr
  device : Option PyStr
  root_fs : Option PyStr
  root_part : Option PyStr
  efi_part : Option PyStr
deriving DecidableEq

/-- The environment the runner executes in: whether each
`cliapp.runcmd` argv succeeds, which paths exist (`os.path.exists`),
and the contents a file path yields when opened for reading. -/
structure Env where
  runcmdOk : List PyStr → Bool
  pathExists : PyStr → Bool
  readFile : PyStr → PyStr

/-- Observable side effects of the runner, in program order:
`os.makedirs` calls, attempted `cliapp.runcmd` invocations (successful
or not), and file writes. -/
inductive Eff where
  | makedirs (p : PyStr)
  | cmd (argv : List PyStr)
  | writeFile (p : PyStr) (text : PyStr)
deriving DecidableEq

/-- The exceptions the runner can raise: `KeyError` (missing step key
or dict key), `AssertionError` (failed `assert`), and a non-zero
external command exit (`cliapp` command failure). -/
inductive RunErr where
  | keyError (k : PyStr)
  | assertionError
  | commandError (argv : List PyStr)
deriving DecidableEq

/-- Result of a stateful operation: the state object after it (Python
mutates `state` in place), the effect trace, and the exception that
escaped, if any. -/
abbrev StepRes := GState × List Eff × Option RunErr

/-- The `mounts.reverse(); while mounts: mounts.pop()` loop of
`unmount`, phrased over the ORIGINAL list `l` (before the in-place
`reverse()`).  Popping from the end of the reversed list visits the
elements of `l` front to back, so the loop takes `l` itself; when
`umount` fails after popping element `mp`, the list object left behind
is the reversed list minus the elements popped so far, i.e.
`rest.reverse`. -/
def unmountLoop (env : Env) : List PyStr → List PyStr × List Eff × Option RunErr
  | [] => ([], [], none)
  | mp :: rest =>
    let c : List PyStr := ["umount".data, mp]
    if env.runcmdOk c then
      let r := unmountLoop env rest
      (r.1, Eff.cmd c :: r.2.1, r.2.2)
    else (rest.reverse, [Eff.cmd c], some (RunErr.commandError c))

/-- Embedding of `GrubStepRunner.unmount`.  `getattr(state,
'grub_mounts', [])` aliases the state's own list when the attribute
exists (so the in-place `reverse`/`pop` mutate the state), and a fresh
list otherwise (so the state keeps lacking the attribute). -/
def unmount (env : Env) (st : GState) : StepRes :=
  match st.grub_mounts with
  | none => (st, [], none)
  | some l =>
    let r := unmountLoop env l
    ({ st with grub_mounts := some r.1 }, r.2.1, r.2.2)

/-- Embedding of `GrubStepRunner.teardown`. -/
def teardown (env : Env) (_step : Step) (st : GState) : StepRes :=
  unmount env st

/-- Embedding of `GrubStepRunner.mount`: compute the in-chroot
destination, create it if missing, run `mount`, and only on success
append the destination to `state.grub_mounts` (created if absent). -/
def mount (env : Env) (chroot path mount_point : PyStr)
    (mount_opts : List PyStr) (st : GState) : StepRes :=
  let cp := chroot_path chroot mount_point
  let dirEffs := if env.pathExists cp then [] else [Eff.makedirs cp]
  let c := "mount".data :: (mount_opts ++ [path, cp])
  if env.runcmdOk c then
    let binds := (st.grub_mounts).getD []
    ({ st with grub_mounts := some (binds ++ [cp]) },
     dirEffs ++ [Eff.cmd c], none)
  else (st, dirEffs ++ [Eff.cmd c], some (RunErr.commandError c))

/-- Embedding of `GrubStepRunner.bind_mount_many`: mount each path onto
itself with `--bind`, stopping at the first failure. -/
def bind_mount_many (env : Env) (chroot : PyStr) (paths : List PyStr)
    (st : GState) : StepRes :=
  match paths with
  | [] => (st, [], none)
  | p :: rest =>
    let r := mount env chroot p p ["--bind".data] st
    match r.2.2 with
    | some e => (r.1, r.2.1, some e)
    | none =>
      let r2 := bind_mount_many env chroot rest r.1
      (r2.1, r.2.1 ++ r2.2.1, r2.2.2)

/-- Argv built by the `chroot` method: `['chroot', chroot] + argv`. -/
def chrootArgv (chroot : PyStr) (argv : List PyStr) : List PyStr :=
  "chroot".data :: chroot :: argv

/-- Argv of the `install_package` invocation. -/
def installPackageArgv (chroot package : PyStr) : List PyStr :=
  chrootArgv chroot
    ["apt-get".data, "-y".data, "--no-show-progress".data, "install".data,
     package]

/-- Embedding of `GrubStepRunner.get_required_keys`. -/
def get_required_keys : List PyStr := ["grub".data, "root-fs".data]

/-- Embedding of `GrubStepRunner.run`, in the source's statement order:
all step-key and state lookups (including the unused `device` lookup
and the loop-device extraction) happen before the first mount; then the
bind mounts, the EFI mount, `apt-get install`, the config rewrite,
`grub-mkconfig`, `grub-install`, and the final `unmount`.  There is no
exception handler: a failure anywhere escapes immediately with the
effects so far and the state as it stands. -/
def run (env : Env) (step : Step) (st : GState) : StepRes :=
  match step.grub with
  | none => (st, [], some (RunErr.keyError "grub".data))
  | some flavor =>
  if flavor ≠ "uefi".data then (st, [], some RunErr.assertionError)
  else
  let grub_package := "grub-efi-amd64".data
  let grub_target := "x86_64-efi".data
  match step.device with
  | none => (st, [], some (RunErr.keyError "device".data))
  | some _device =>
  match step.root_fs with
  | none => (st, [], some (RunErr.keyError "root-fs".data))
  | some rootfs =>
  match dictGet st.mounts rootfs with
  | none => (st, [], some (RunErr.keyError rootfs))
  | some chroot =>
  match step.root_part with
  | none => (st, [], some (RunErr.keyError "root-part".data))
  | some root_part =>
  match dictGet st.parts root_part with
  | none => (st, [], some (RunErr.keyError root_part))
  | some root_dev =>
  match step.efi_part with
  | none => (st, [], some (RunErr.keyError "efi-part".data))
  | some efi_part =>
  match dictGet st.parts efi_part with
  | none => (st, [], some (RunErr.keyError efi_part))
  | some efi_dev =>
  match get_image_loop_device root_dev with
  | Except.error _ => (st, [], some RunErr.assertionError)
  | Except.ok image_dev =>
  let r1 := bind_mount_many env chroot ["/dev".data, "/proc".data, "/sys".data] st
  match r1.2.2 with
  | some e => (r1.1, r1.2.1, some e)
  | none =>
  let r2 := mount env chroot efi_dev "/boot/efi".data [] r1.1
  let effs2 := r1.2.1 ++ r2.2.1
  match r2.2.2 with
  | some e => (r2.1, effs2, some e)
  | none =>
  let st2 := r2.1
  let c1 := installPackageArgv chroot grub_package
  if ¬ env.runcmdOk c1 then
    (st2, effs2 ++ [Eff.cmd c1], some (RunErr.commandError c1))
  else
  let filename := chroot_path chroot "/etc/default/grub".data
  let wEff := Eff.writeFile filename
    (set_grub_cmdline_config kernel_params (env.readFile filename))
  let effs3 := effs2 ++ [Eff.cmd c1, wEff]
  let c2 := chrootArgv chroot
    ["grub-mkconfig".data, "-o".data, "/boot/grub/grub.cfg".data]
  if ¬ env.runcmdOk c2 then
    (st2, effs3 ++ [Eff.cmd c2], some (RunErr.commandError c2))
  else
  let c3 := chrootArgv chroot
    ["grub-install".data, "--target=".data ++ grub_target, "--no-nvram".data,
     "--force-extra-removable".data, "--no-floppy".data,
     "--modules=part_msdos part_gpt".data,
     "--grub-mkdevicemap=/boot/grub/device.map".data, image_dev]
  if ¬ env.runcmdOk c3 then
    (st2, effs3 ++ [Eff.cmd c2, Eff.cmd c3], some (RunErr.commandError c3))
  else
  let r3 := unmount env st2
  (r3.1, effs3 ++ [Eff.cmd c2, Eff.cmd c3] ++ r3.2.1, r3.2.2)

end GrubStepRunner

namespace GrubStepRunner

/-- Recognizes an `umount` invocation in an effect trace. -/
def isUmountEff : Eff → Bool
  | Eff.cmd argv => argv.head? == some "umount".data
  | _ => false

/-- Environment in which every external command succeeds, every path
exists, and every file reads as empty. -/
def envAll : Env :=
  { runcmdOk := fun _ => true, pathExists := fun _ => true,
    readFile := fun _ => [] }

/-- A typical `/etc/default/grub` with an existing
`GRUB_CMDLINE_LINUX_DEFAULT` line. -/
def sampleGrubText : PyStr :=
  "GRUB_TIMEOUT=5\nGRUB_CMDLINE_LINUX_DEFAULT=\"quiet\"\n".data

/-- The state of the spec's scenario: root filesystem `root` mounted at
`/chr`, partitions `p1`/`p2` backed by loop mapper devices, no
`grub_mounts` attribute yet. -/
def sampleState : GState :=
  { mounts := [("root".data, "/chr".data)],
    parts := [("p1".data, "/dev/mapper/loop3p1".data),
              ("p2".data, "/dev/mapper/loop3p2".data)],
    grub_mounts := none }

/-- The step of the spec's scenario. -/
def sampleStep : Step :=
  { grub := some "uefi".data, device := some "/img.raw".data,
    root_fs := some "root".data, root_part := some "p1".data,
    efi_part := some "p2".data }

/-- Environment in which exactly the `grub-install` invocation fails
(exit code 1) and everything else succeeds. -/
def envNoGrubInstall : Env :=
  { runcmdOk := fun argv => decide ("grub-install".data ∉ argv),
    pathExists := fun _ => false,
    readFile := fun _ => sampleGrubText }

/-- When every `umount` succeeds, the unmount loop drains the whole
list and invokes `umount` once per element, in the list's own
(original mount) order. -/
theorem unmountLoop_all_ok (env : Env) (l : List PyStr)
    (h : ∀ mp ∈ l, env.runcmdOk ["umount".data, mp] = true) :
    unmountLoop env l
      = ([], l.map (fun mp => Eff.cmd ["umount".data, mp]), none) := by
  induction l with
  | nil => rfl
  | cons mp rest ih =>
    have hmp := h mp (by simp)
    have hrest : ∀ x ∈ rest, env.runcmdOk ["umount".data, x] = true :=
      fun x hx => h x (by simp [hx])
    simp [unmountLoop, hmp, ih hrest]

/-- If the unmount loop returns without an exception, the remaining
list is empty. -/
theorem unmountLoop_ok_drained (env : Env) (l : List PyStr)
    (h : (unmountLoop env l).2.2 = none) : (unmountLoop env l).1 = [] := by
  induction l with
  | nil => rfl
  | cons mp rest ih =>
    by_cases hc : env.runcmdOk ["umount".data, mp] = true
    · simp only [unmountLoop, hc, if_true] at h ⊢
      exact ih h
    · simp only [unmountLoop, Bool.not_eq_true] at hc
      simp [unmountLoop, hc] at h

/-- Unmount on a state holding recorded mounts, when every `umount`
succeeds: the list is drained and `umount` runs once per recorded path,
in the original recorded order. -/
theorem unmount_all_ok (env : Env) (st : GState) (l : List PyStr)
    (hl : st.grub_mounts = some l)
    (h : ∀ mp ∈ l, env.runcmdOk ["umount".data, mp] = true) :
    unmount env st
      = ({ st with grub_mounts := some [] },
         l.map (fun mp => Eff.cmd ["umount".data, mp]), none) := by
  unfold unmount
  rw [hl]
  simp [unmountLoop_all_ok env l h]


/-- Unmount on a state whose recorded-mount list is already empty is a
no-op returning the state unchanged. -/
theorem unmount_some_nil (env : Env) (st : GState)
    (h : st.grub_mounts = some []) : unmount env st = (st, [], none) := by
  cases st with
  | mk m p g => simp_all [unmount, unmountLoop]

/-- C1: evaluating the unmount routine at the failing input: recorded
mounts `["/a", "/b"]`, every `umount` succeeding.  The code invokes
`umount /a` and then `umount /b` — the original MOUNT order, not the
reverse order the claim states (the in-place `reverse()` is cancelled
by `pop()` taking from the end); each recorded path is unmounted
exactly once and the list is drained. -/
theorem unmount_order_failing_input :
    unmount envAll
        { mounts := [], parts := [],
          grub_mounts := some ["/a".data, "/b".data] }
      = ({ mounts := [], parts := [], grub_mounts := some [] },
         [Eff.cmd ["umount".data, "/a".data],
          Eff.cmd ["umount".data, "/b".data]], none)
    ∧ [Eff.cmd ["umount".data, "/a".data],
       Eff.cmd ["umount".data, "/b".data]]
      ≠ [Eff.cmd ["umount".data, "/b".data],
         Eff.cmd ["umount".data, "/a".data]] :=
  ⟨rfl, by decide⟩

/-- C5: a step whose `grub` value is not `"uefi"` makes `run` fail at
the `assert flavor == 'uefi'` (the configuration check), with no
effects performed and the state untouched: zero mounts. -/
theorem run_non_uefi_rejected (env : Env) (step : Step) (st : GState)
    (flavor : PyStr) (hg : step.grub = some flavor)
    (hf : flavor ≠ "uefi".data) :
    run env step st = (st, [], some RunErr.assertionError) := by
  unfold run
  rw [hg]
  simp [hf]

/-- Witness for C5: a step with `grub: "bios"` is rejected with no
effects. -/
theorem run_non_uefi_rejected_witness :
    run envAll
        { grub := some "bios".data, device := none, root_fs := none,
          root_part := none, efi_part := none } sampleState
      = (sampleState, [], some RunErr.assertionError) :=
  run_non_uefi_rejected envAll _ sampleState "bios".data rfl (by decide)

/-- C6 counterexample: the declared required-key validation list is
exactly `['grub', 'root-fs']`; it does not cover `device`, `root-part`
or `efi-part`, contrary to the claim. -/
theorem get_required_keys_counterexample :
    get_required_keys = ["grub".data, "root-fs".data]
    ∧ "device".data ∉ get_required_keys
    ∧ "root-part".data ∉ get_required_keys
    ∧ "efi-part".data ∉ get_required_keys := by
  refine ⟨rfl, ?_, ?_, ?_⟩ <;> decide

/-- C6 amended: required-key validation covers exactly `grub` and
`root-fs`; a uefi step missing `device` passes that check and `run`
instead fails with a `KeyError` for `device`, before any action (no
effects, state unchanged). -/
theorem get_required_keys_amended (env : Env) (st : GState) (step : Step)
    (hg : step.grub = some "uefi".data) (hd : step.device = none) :
    get_required_keys = ["grub".data, "root-fs".data]
    ∧ run env step st = (st, [], some (RunErr.keyError "device".data)) := by
  refine ⟨rfl, ?_⟩
  unfold run
  rw [hg, hd]
  simp

/-- Witness for C6's amended claim: a concrete uefi step missing
`device`. -/
theorem get_required_keys_amended_witness :
    get_required_keys = ["grub".data, "root-fs".data]
    ∧ run envAll
        { grub := some "uefi".data, device := none,
          root_fs := some "root".data, root_part := some "p1".data,
          efi_part := some "p2".data } sampleState
      = (sampleState, [], some (RunErr.keyError "device".data)) :=
  get_required_keys_amended envAll sampleState _ rfl rfl

/-- C8: calling unmount with zero tracked mounts — the `grub_mounts`
attribute absent, or present and already drained to `[]` — is a no-op:
no `umount` command is invoked, no error is raised, the state is
unchanged; and after any unmount that returns normally, calling
unmount again does nothing: unmount is idempotent. -/
theorem unmount_noop_idempotent :
    (∀ (env : Env) (st : GState),
      st.grub_mounts = none ∨ st.grub_mounts = some [] →
      unmount env st = (st, [], none))
    ∧ (∀ (env : Env) (st : GState), (unmount env st).2.2 = none →
      unmount env (unmount env st).1 = ((unmount env st).1, [], none)) := by
  have base : ∀ (env : Env) (st : GState),
      st.grub_mounts = none ∨ st.grub_mounts = some [] →
      unmount env st = (st, [], none) := by
    intro env st h
    rcases h with h | h
    · unfold unmount
      rw [h]
    · exact unmount_some_nil env st h
  refine ⟨base, ?_⟩
  intro env st h
  rcases hg : st.grub_mounts with _ | l
  · have h1 := base env st (Or.inl hg)
    rw [h1]
    exact base env st (Or.inl hg)
  · have hu : unmount env st
        = ({ st with grub_mounts := some (unmountLoop env l).1 },
           (unmountLoop env l).2.1, (unmountLoop env l).2.2) := by
      unfold unmount
      rw [hg]
    rw [hu] at h ⊢
    have hdr := unmountLoop_ok_drained env l h
    rw [hdr]
    exact base env _ (Or.inr rfl)

/-- Witness for C8: the attribute-absent no-op and the second call
after a successful drain, at concrete inputs. -/
theorem unmount_noop_idempotent_witness :
    unmount envAll sampleState = (sampleState, [], none)
    ∧ unmount envAll
        (unmount envAll
          { sampleState with grub_mounts := some ["/chr/dev".data] }).1
      = ((unmount envAll
          { sampleState with grub_mounts := some ["/chr/dev".data] }).1,
         [], none) :=
  ⟨unmount_noop_idempotent.1 envAll sampleState (Or.inl rfl),
   unmount_noop_idempotent.2 envAll _ (by decide)⟩


/-- Environment in which every external command fails. -/
def envNoCmd : Env :=
  { runcmdOk := fun _ => false, pathExists := fun _ => false,
    readFile := fun _ => [] }

/-- C2 counterexample: in the spec's scenario, with every command
succeeding except `grub-install` (exit code 1), `run` fails with the
command error but performs NO `umount` at all: the error propagates
with all four mounted paths still recorded in `grub_mounts` (there is
no error handler in `run`). -/
theorem run_no_cleanup_on_failure_counterexample :
    (run envNoGrubInstall sampleStep sampleState).2.2
      = some (RunErr.commandError (chrootArgv "/chr".data
          ["grub-install".data, "--target=x86_64-efi".data,
           "--no-nvram".data, "--force-extra-removable".data,
           "--no-floppy".data, "--modules=part_msdos part_gpt".data,
           "--grub-mkdevicemap=/boot/grub/device.map".data,
           "/dev/loop3".data]))
    ∧ (run envNoGrubInstall sampleStep sampleState).1.grub_mounts
      = some ["/chr/dev".data, "/chr/proc".data, "/chr/sys".data,
              "/chr/boot/efi".data]
    ∧ (run envNoGrubInstall sampleStep sampleState).2.1.countP isUmountEff
      = 0 :=
  ⟨rfl, rfl, rfl⟩

/-- C2 amended: when `grub-install` fails after the four mounts
succeeded, `run` propagates the error WITHOUT unmounting anything
itself; the cleanup is provided by the separate `teardown` entry point
(invoked by the orchestrator), which unmounts every previously mounted
path exactly once — in mount order — and drains the list. -/
theorem run_failure_teardown_cleanup :
    (run envNoGrubInstall sampleStep sampleState).2.1.countP isUmountEff
      = 0
    ∧ (run envNoGrubInstall sampleStep sampleState).1.grub_mounts
      = some ["/chr/dev".data, "/chr/proc".data, "/chr/sys".data,
              "/chr/boot/efi".data]
    ∧ teardown envAll sampleStep
        (run envNoGrubInstall sampleStep sampleState).1
      = ({ sampleState with grub_mounts := some [] },
         [Eff.cmd ["umount".data, "/chr/dev".data],
          Eff.cmd ["umount".data, "/chr/proc".data],
          Eff.cmd ["umount".data, "/chr/sys".data],
          Eff.cmd ["umount".data, "/chr/boot/efi".data]], none) :=
  ⟨rfl, rfl, rfl⟩

/-- C10: with `grub == "uefi"`, if any of the step keys `device`,
`root-fs`, `root-part`, `efi-part` is missing, or the `root-fs` tag is
unresolvable in `state.mounts`, or the `root-part`/`efi-part` tags are
unresolvable in `state.parts`, `run` raises a `KeyError` before any
mount, directory creation or external command: the effect trace is
empty and the state unchanged (all lookups precede the first mount). -/
theorem run_lookup_failure_before_effects (env : Env) (step : Step)
    (st : GState) (hg : step.grub = some "uefi".data)
    (h : step.device = none ∨ step.root_fs = none
      ∨ (∃ t, step.root_fs = some t ∧ dictGet st.mounts t = none)
      ∨ step.root_part = none
      ∨ (∃ t, step.root_part = some t ∧ dictGet st.parts t = none)
      ∨ step.efi_part = none
      ∨ (∃ t, step.efi_part = some t ∧ dictGet st.parts t = none)) :
    ∃ k, run env step st = (st, [], some (RunErr.keyError k)) := by
  rcases hd : step.device with _ | d
  · exact ⟨"device".data, by unfold run; rw [hg, hd]; simp⟩
  rcases hrf : step.root_fs with _ | rootfs
  · exact ⟨"root-fs".data, by unfold run; rw [hg, hd, hrf]; simp⟩
  rcases hm : dictGet st.mounts rootfs with _ | chroot
  · exact ⟨rootfs, by unfold run; rw [hg, hd, hrf]; simp [hm]⟩
  rcases hrp : step.root_part with _ | root_part
  · exact ⟨"root-part".data,
      by unfold run; rw [hg, hd, hrf]; simp [hm, hrp]⟩
  rcases hpl : dictGet st.parts root_part with _ | root_dev
  · exact ⟨root_part,
      by unfold run; rw [hg, hd, hrf]; simp [hm, hrp, hpl]⟩
  rcases hep : step.efi_part with _ | efi_part
  · exact ⟨"efi-part".data,
      by unfold run; rw [hg, hd, hrf]; simp [hm, hrp, hpl, hep]⟩
  rcases hel : dictGet st.parts efi_part with _ | efi_dev
  · exact ⟨efi_part,
      by unfold run; rw [hg, hd, hrf]; simp [hm, hrp, hpl, hep, hel]⟩
  exfalso
  rcases h with h | h | ⟨t, ht, hl⟩ | h | ⟨t, ht, hl⟩ | h | ⟨t, ht, hl⟩ <;>
    simp_all

/-- Witness for C10: a uefi step whose `efi-part` tag is not in
`state.parts`. -/
theorem run_lookup_failure_before_effects_witness :
    ∃ k, run envAll
        { sampleStep with efi_part := some "missing".data } sampleState
      = (sampleState, [], some (RunErr.keyError k)) :=
  run_lookup_failure_before_effects envAll _ sampleState rfl
    (Or.inr (Or.inr (Or.inr (Or.inr (Or.inr (Or.inr
      ⟨"missing".data, rfl, rfl⟩))))))

/-- C7: the mount helper computes the destination as
`chroot_path chroot mount_point` (that is, `<chroot>/.<path>`
normalized — e.g. `/chr` and `/dev` give `/chr/dev`), creates the
destination directory tree first when it does not exist, then runs
`mount`; on command failure the state — in particular `grub_mounts` —
is untouched (nothing is appended) and the error propagates; on
success exactly the destination is appended to the tracked list. -/
theorem mount_contract (env : Env) (chroot path mp : PyStr)
    (opts : List PyStr) (st : GState) :
    (env.runcmdOk ("mount".data :: (opts ++ [path, chroot_path chroot mp]))
        = false →
      mount env chroot path mp opts st
        = (st,
           (if env.pathExists (chroot_path chroot mp) then []
            else [Eff.makedirs (chroot_path chroot mp)])
             ++ [Eff.cmd ("mount".data
                   :: (opts ++ [path, chroot_path chroot mp]))],
           some (RunErr.commandError ("mount".data
                   :: (opts ++ [path, chroot_path chroot mp])))))
    ∧ (env.runcmdOk ("mount".data :: (opts ++ [path, chroot_path chroot mp]))
        = true →
      mount env chroot path mp opts st
        = ({ st with
                grub_mounts := some (st.grub_mounts.getD []
                  ++ [chroot_path chroot mp]) },
           (if env.pathExists (chroot_path chroot mp) then []
            else [Eff.makedirs (chroot_path chroot mp)])
             ++ [Eff.cmd ("mount".data
                   :: (opts ++ [path, chroot_path chroot mp]))],
           none))
    ∧ chroot_path "/chr".data "/dev".data = "/chr/dev".data := by
  refine ⟨?_, ?_, by decide⟩ <;> intro hc <;> simp [mount, hc]

/-- Witness for C7: a failing mount appends nothing and a succeeding
mount appends exactly the destination, at concrete inputs. -/
theorem mount_contract_witness :
    mount envNoCmd "/chr".data "/dev".data "/dev".data ["--bind".data]
        sampleState
      = (sampleState,
         [Eff.makedirs "/chr/dev".data,
          Eff.cmd ["mount".data, "--bind".data, "/dev".data,
                   "/chr/dev".data]],
         some (RunErr.commandError
           ["mount".data, "--bind".data, "/dev".data, "/chr/dev".data]))
    ∧ (mount envAll "/chr".data "/dev".data "/dev".data ["--bind".data]
        sampleState).1.grub_mounts = some ["/chr/dev".data] := by
  constructor
  · exact (mount_contract envNoCmd "/chr".data "/dev".data "/dev".data
      ["--bind".data] sampleState).1 rfl
  · rw [(mount_contract envAll "/chr".data "/dev".data "/dev".data
      ["--bind".data] sampleState).2.1 rfl]
    rfl

/-- C9: the `grub_mounts` list is created lazily by the first
successful mount and appended to in mount order — after the `/dev`,
`/proc`, `/sys` bind mounts and the EFI mount at `/boot/efi` it holds
exactly those four destinations in that order — and whenever the
unmount routine returns normally on a state holding a list, the list
has been drained to empty. -/
theorem grub_mounts_lifecycle :
    (∀ (env : Env) (chroot efi_dev : PyStr) (st : GState),
      st.grub_mounts = none →
      env.runcmdOk ["mount".data, "--bind".data, "/dev".data,
        chroot_path chroot "/dev".data] = true →
      env.runcmdOk ["mount".data, "--bind".data, "/proc".data,
        chroot_path chroot "/proc".data] = true →
      env.runcmdOk ["mount".data, "--bind".data, "/sys".data,
        chroot_path chroot "/sys".data] = true →
      env.runcmdOk ["mount".data, efi_dev,
        chroot_path chroot "/boot/efi".data] = true →
      (mount env chroot efi_dev "/boot/efi".data []
        (bind_mount_many env chroot
          ["/dev".data, "/proc".data, "/sys".data] st).1).1.grub_mounts
        = some [chroot_path chroot "/dev".data,
                chroot_path chroot "/proc".data,
                chroot_path chroot "/sys".data,
                chroot_path chroot "/boot/efi".data])
    ∧ (∀ (env : Env) (st : GState) (l : List PyStr),
        st.grub_mounts = some l → (unmount env st).2.2 = none →
        (unmount env st).1.grub_mounts = some []) := by
  constructor
  · intro env chroot efi_dev st h0 h1 h2 h3 h4
    simp [bind_mount_many, mount, h0, h1, h2, h3, h4]
  · intro env st l hl h
    have hu : unmount env st
        = ({ st with grub_mounts := some (unmountLoop env l).1 },
           (unmountLoop env l).2.1, (unmountLoop env l).2.2) := by
      unfold unmount
      rw [hl]
    rw [hu] at h ⊢
    simp only at h
    rw [unmountLoop_ok_drained env l h]

/-- Witness for C9: the four mounts of the scenario, and a drain, at
concrete inputs. -/
theorem grub_mounts_lifecycle_witness :
    (mount envAll "/chr".data "/dev/mapper/loop3p2".data "/boot/efi".data []
      (bind_mount_many envAll "/chr".data
        ["/dev".data, "/proc".data, "/sys".data]
        sampleState).1).1.grub_mounts
      = some ["/chr/dev".data, "/chr/proc".data, "/chr/sys".data,
              "/chr/boot/efi".data]
    ∧ (unmount envAll
        { sampleState with grub_mounts := some ["/chr/dev".data] }
       ).1.grub_mounts = some [] :=
  ⟨grub_mounts_lifecycle.1 envAll "/chr".data "/dev/mapper/loop3p2".data
      sampleState rfl rfl rfl rfl rfl,
   grub_mounts_lifecycle.2 envAll _ ["/chr/dev".data] rfl (by decide)⟩


/-- A list is a prefix (in the `isPrefixOf` sense) of itself followed
by anything. -/
theorem isPrefixOf_append_self (l r : PyStr) :
    List.isPrefixOf l (l ++ r) = true := by
  induction l with
  | nil => simp [List.isPrefixOf]
  | cons c l' ih => simp [List.isPrefixOf, ih]

/-- `takeWhile pyDigit` over an all-digit block followed by a
non-digit-headed remainder yields exactly the block. -/
theorem takeWhile_digits_append (d X : PyStr)
    (hd : ∀ c ∈ d, pyDigit c = true)
    (hX : ∀ c, X.head? = some c → pyDigit c = false) :
    (d ++ X).takeWhile pyDigit = d := by
  induction d with
  | nil =>
    cases X with
    | nil => rfl
    | cons c X' => simp [List.takeWhile_cons, hX c rfl]
  | cons c d' ih =>
    have hc := hd c (by simp)
    have hd' : ∀ x ∈ d', pyDigit x = true := fun x hx => hd x (by simp [hx])
    simp [List.takeWhile_cons, hc, ih hd']

/-- `dropWhile pyDigit` over an all-digit block followed by a
non-digit-headed remainder yields exactly the remainder. -/
theorem dropWhile_digits_append (d X : PyStr)
    (hd : ∀ c ∈ d, pyDigit c = true)
    (hX : ∀ c, X.head? = some c → pyDigit c = false) :
    (d ++ X).dropWhile pyDigit = X := by
  induction d with
  | nil =>
    cases X with
    | nil => rfl
    | cons c X' => simp [List.dropWhile_cons, hX c rfl]
  | cons c d' ih =>
    have hc := hd c (by simp)
    have hd' : ∀ x ∈ d', pyDigit x = true := fun x hx => hd x (by simp [hx])
    simp [List.dropWhile_cons, hc, ih hd']

/-- `span pyDigit` separates an all-digit block from a
non-digit-headed remainder. -/
theorem span_digits_append (d X : PyStr)
    (hd : ∀ c ∈ d, pyDigit c = true)
    (hX : ∀ c, X.head? = some c → pyDigit c = false) :
    (d ++ X).span pyDigit = (d, X) := by
  rw [List.span_eq_take_drop, takeWhile_digits_append d X hd hX,
    dropWhile_digits_append d X hd hX]

/-- Any string matching the spec's `<mapper-prefix>/loop<N>p<M>`
pattern ends in a digit. -/
theorem loopPartPatternSpec_last_digit (s : PyStr)
    (h : loopPartPatternSpec s) :
    ∃ c, s.getLast? = some c ∧ pyDigit c = true := by
  obtain ⟨d1, d2, h1, h2, hd1, hd2, rfl⟩ := h
  rw [List.getLast?_append_cons, show ('p' :: d2) = ['p'] ++ d2 from rfl,
    List.getLast?_append_of_ne_nil _ h2,
    List.getLast?_eq_getLast_of_ne_nil h2]
  exact ⟨d2.getLast h2, rfl, hd2 _ (List.getLast_mem h2)⟩

/-- A `span pyDigit` result decomposes its input into an all-digit
block and the remainder. -/
theorem span_parts (l a b : PyStr) (h : l.span pyDigit = (a, b)) :
    l = a ++ b ∧ (∀ c ∈ a, pyDigit c = true) := by
  rw [List.span_eq_take_drop] at h
  have e1 : l.takeWhile pyDigit = a := congrArg Prod.fst h
  have e2 : l.dropWhile pyDigit = b := congrArg Prod.snd h
  constructor
  · rw [← e1, ← e2]
    exact (List.takeWhile_append_dropWhile pyDigit l).symm
  · intro c hc
    rw [← e1] at hc
    exact List.mem_takeWhile_imp hc

/-- Completeness direction for `matchLoopRe`: a successful match
exposes the exact shape of the input and of the captured group. -/
theorem matchLoopRe_eq_some (s loop : PyStr)
    (h : matchLoopRe s = some loop) :
    ∃ d1 d2 t : PyStr, d1 ≠ [] ∧ d2 ≠ [] ∧ (∀ c ∈ d1, pyDigit c = true) ∧
      (∀ c ∈ d2, pyDigit c = true) ∧ (t = [] ∨ t = ['\n']) ∧
      s = "/dev/mapper/loop".data ++ d1 ++ ('p' :: d2) ++ t ∧
      loop = "loop".data ++ d1 := by
  unfold matchLoopRe at h
  cases hdp : s.dropPrefix? "/dev/mapper/loop".data with
  | none =>
    simp only [hdp] at h
    exact Option.noConfusion h
  | some r1 =>
  simp only [hdp] at h
  obtain ⟨d1, rest1, hsp1⟩ : ∃ a b, r1.span pyDigit = (a, b) := ⟨_, _, rfl⟩
  rw [hsp1] at h
  dsimp only at h
  obtain ⟨d2, t, hsp2⟩ : ∃ a b, rest1.tail.span pyDigit = (a, b) :=
    ⟨_, _, rfl⟩
  rw [hsp2] at h
  dsimp only at h
  by_cases h1 : d1 = []
  · rw [if_pos h1] at h
    exact Option.noConfusion h
  rw [if_neg h1] at h
  by_cases hp : rest1.head? = some 'p'
  swap
  · rw [if_neg hp] at h
    exact Option.noConfusion h
  rw [if_pos hp] at h
  by_cases h2 : d2 = []
  · rw [if_pos h2] at h
    exact Option.noConfusion h
  rw [if_neg h2] at h
  by_cases h3 : t = [] ∨ t = ['\n']
  swap
  · rw [if_neg h3] at h
    exact Option.noConfusion h
  rw [if_pos h3] at h
  have hloop : loop = "loop".data ++ d1 := (Option.some.inj h).symm
  have hs : s = "/dev/mapper/loop".data ++ r1 := by
    obtain ⟨p', hp', hbeq⟩ := List.dropPrefix?_eq_some_iff.mp hdp
    rw [hp', beq_iff_eq.mp hbeq]
  obtain ⟨hr1, hd1dig⟩ := span_parts r1 d1 rest1 hsp1
  obtain ⟨htl, hd2dig⟩ := span_parts rest1.tail d2 t hsp2
  have hrest : rest1 = 'p' :: rest1.tail := (List.cons_head?_tail hp).symm
  refine ⟨d1, d2, t, h1, h2, hd1dig, hd2dig, h3, ?_, hloop⟩
  rw [hs]
  conv_lhs => rw [hr1, hrest, htl]
  simp [List.append_assoc]

/-- C3 amended: every path of the exact form
`/dev/mapper/loop<N>p<M>` — and, because Python's `$` also matches just
before one final newline, every such path followed by a single trailing
`'\n'` — yields `/dev/loop<N>`; every other path fails the asserts (a
format error).  Digits are taken as ASCII (Python's `\d` would further
accept non-ASCII Unicode digits). -/
theorem get_image_loop_device_characterization :
    (∀ d1 d2 : PyStr, d1 ≠ [] → d2 ≠ [] → (∀ c ∈ d1, pyDigit c = true) →
      (∀ c ∈ d2, pyDigit c = true) → ∀ t : PyStr, t = [] ∨ t = ['\n'] →
      get_image_loop_device
          ("/dev/mapper/loop".data ++ d1 ++ ('p' :: d2) ++ t)
        = Except.ok ("/dev/loop".data ++ d1))
    ∧ (∀ s r : PyStr, get_image_loop_device s = Except.ok r →
      ∃ d1 d2 t : PyStr, d1 ≠ [] ∧ d2 ≠ [] ∧
        (∀ c ∈ d1, pyDigit c = true) ∧ (∀ c ∈ d2, pyDigit c = true) ∧
        (t = [] ∨ t = ['\n']) ∧
        s = "/dev/mapper/loop".data ++ d1 ++ ('p' :: d2) ++ t ∧
        r = "/dev/loop".data ++ d1) := by
  constructor
  · intro d1 d2 h1 h2 hd1 hd2 t ht
    have hX1 : ∀ c, ('p' :: (d2 ++ t)).head? = some c → pyDigit c = false := by
      intro c hc
      simp only [List.head?_cons, Option.some.injEq] at hc
      rw [← hc]
      decide
    have hX2 : ∀ c, t.head? = some c → pyDigit c = false := by
      rcases ht with rfl | rfl
      · intro c hc
        simp at hc
      · intro c hc
        simp only [List.head?_cons, Option.some.injEq] at hc
        rw [← hc]
        decide
    have hspan1 := span_digits_append d1 ('p' :: (d2 ++ t)) hd1 hX1
    have hspan2 := span_digits_append d2 t hd2 hX2
    have hdp : ("/dev/mapper/loop".data
        ++ (d1 ++ ('p' :: (d2 ++ t)))).dropPrefix?
          "/dev/mapper/loop".data = some (d1 ++ ('p' :: (d2 ++ t))) :=
      List.dropPrefix?_append_of_beq _ (by simp)
    have hshape : "/dev/mapper/loop".data ++ d1 ++ ('p' :: d2) ++ t
        = "/dev/mapper/loop".data ++ (d1 ++ ('p' :: (d2 ++ t))) := by
      simp [List.append_assoc]
    rw [hshape]
    unfold get_image_loop_device matchLoopRe
    rw [isPrefixOf_append_self, if_pos rfl]
    simp only [hdp, hspan1, List.head?_cons, List.tail_cons, hspan2, h1,
      h2, eq_self_iff_true, ite_true, ite_false]
    rw [if_pos ht]
    rfl
  · intro s r h
    unfold get_image_loop_device at h
    by_cases hp : List.isPrefixOf "/dev/mapper/loop".data s = true
    swap
    · rw [if_neg (by simpa using hp)] at h
      exact absurd h (by simp)
    rw [if_pos (by simpa using hp)] at h
    cases hm : matchLoopRe s with
    | none => rw [hm] at h; exact absurd h (by simp)
    | some loop =>
      rw [hm] at h
      obtain ⟨d1, d2, t, h1, h2, hd1, hd2, ht, hs, hloop⟩ :=
        matchLoopRe_eq_some s loop hm
      refine ⟨d1, d2, t, h1, h2, hd1, hd2, ht, hs, ?_⟩
      have hr : r = "/dev/".data ++ loop := (Except.ok.inj h).symm
      rw [hr, hloop, ← List.append_assoc]
      rfl

/-- Witness for C3's amended claim: the scenario path
`/dev/mapper/loop3p1` resolves to `/dev/loop3`, and a successful result
on `/dev/mapper/loop12p34` exposes the matched shape. -/
theorem get_image_loop_device_characterization_witness :
    get_image_loop_device "/dev/mapper/loop3p1".data
      = Except.ok ("/dev/loop".data ++ ['3'])
    ∧ ∃ d1 d2 t : PyStr, d1 ≠ [] ∧ d2 ≠ [] ∧
      (∀ c ∈ d1, pyDigit c = true) ∧ (∀ c ∈ d2, pyDigit c = true) ∧
      (t = [] ∨ t = ['\n']) ∧
      "/dev/mapper/loop12p34".data
        = "/dev/mapper/loop".data ++ d1 ++ ('p' :: d2) ++ t ∧
      "/dev/loop12".data = "/dev/loop".data ++ d1 :=
  ⟨by
    have := get_image_loop_device_characterization.1 ['3'] ['1']
      (by decide) (by decide) (by decide) (by decide) [] (Or.inl rfl)
    simpa using this,
   get_image_loop_device_characterization.2 "/dev/mapper/loop12p34".data
     "/dev/loop12".data rfl⟩

/-- C3 counterexample: `/dev/mapper/loop3p1` followed by a newline is
NOT of the spec's `<mapper-prefix>/loop<N>p<M>` form, yet
`get_image_loop_device` succeeds on it (Python's `$` matches before a
single final newline) instead of failing with a format error. -/
theorem get_image_loop_device_counterexample :
    ¬ loopPartPatternSpec "/dev/mapper/loop3p1\n".data
    ∧ get_image_loop_device "/dev/mapper/loop3p1\n".data
      = Except.ok "/dev/loop3".data := by
  constructor
  · intro h
    obtain ⟨c, hc, hdig⟩ := loopPartPatternSpec_last_digit _ h
    rw [show "/dev/mapper/loop3p1\n".data.getLast? = some '\n' from rfl]
      at hc
    rw [← Option.some.inj hc] at hdig
    exact absurd hdig (by decide)
  · rfl


/-- A `'\n'` head always terminates the current line in
`splitlinesGo`. -/
theorem splitlinesGo_cons_nl (rest acc : List Char) :
    splitlinesGo ('\n' :: rest) acc
      = acc.reverse :: (if rest = [] then [] else splitlinesGo rest []) :=
  rfl

/-- A non-line-break head is accumulated into the current line. -/
theorem splitlinesGo_cons_clean (c : Char) (rest acc : List Char)
    (hc : isPyLineBreak c = false) :
    splitlinesGo (c :: rest) acc = splitlinesGo rest (c :: acc) := by
  have hcr : c ≠ '\r' := by
    intro e
    rw [e] at hc
    exact absurd hc (by decide)
  rw [splitlinesGo.eq_def]
  split
  · simp_all
  · simp_all
  · rename_i c' rest' heq
    simp_all

/-- A line-break head that does not start a `'\r\n'` pair terminates
the current line. -/
theorem splitlinesGo_cons_break (c : Char) (rest acc : List Char)
    (hno : ∀ r2, c = '\r' → rest = '\n' :: r2 → False)
    (hb : isPyLineBreak c = true) :
    splitlinesGo (c :: rest) acc
      = acc.reverse :: (if rest = [] then [] else splitlinesGo rest []) := by
  rw [splitlinesGo.eq_def]
  split
  · simp_all
  · rename_i rest2 heq
    injection heq with e1 e2
    exact absurd e2 (fun e => hno rest2 e1 e)
  · rename_i c' rest' heq
    injection heq with e1 e2
    subst e1
    subst e2
    rw [if_pos hb]

/-- Splitting a clean line followed by a `'\n'` separator emits the
accumulated line and continues after the separator. -/
theorem splitlinesGo_clean_append (l : PyStr)
    (hl : ∀ c ∈ l, isPyLineBreak c = false) (rest acc : List Char) :
    splitlinesGo (l ++ '\n' :: rest) acc
      = (acc.reverse ++ l)
        :: (if rest = [] then [] else splitlinesGo rest []) := by
  induction l generalizing acc with
  | nil => simpa using splitlinesGo_cons_nl rest acc
  | cons c l' ih =>
    have hc := hl c (by simp)
    have hl' : ∀ x ∈ l', isPyLineBreak x = false :=
      fun x hx => hl x (by simp [hx])
    rw [List.cons_append, splitlinesGo_cons_clean c _ acc hc, ih hl']
    simp

/-- Every line produced by `splitlinesGo` is free of line-break
characters (given a clean accumulator). -/
theorem splitlinesGo_all_clean (s acc : List Char) :
    (∀ c ∈ acc, isPyLineBreak c = false) →
    ∀ l ∈ splitlinesGo s acc, ∀ c ∈ l, isPyLineBreak c = false := by
  induction s, acc using splitlinesGo.induct with
  | case1 acc =>
    intro hacc l hl c hc
    simp only [splitlinesGo, List.mem_singleton] at hl
    subst hl
    exact hacc c (List.mem_reverse.mp hc)
  | case2 rest acc ih =>
    intro hacc l hl c hc
    simp only [splitlinesGo] at hl
    rcases List.mem_cons.mp hl with rfl | hl2
    · exact hacc c (List.mem_reverse.mp hc)
    · by_cases hr : rest = []
      · rw [if_pos hr] at hl2
        simp at hl2
      · rw [if_neg hr] at hl2
        exact ih (by simp) l hl2 c hc
  | case3 c0 rest acc hno hb ih =>
    intro hacc l hl c hc
    rw [splitlinesGo_cons_break c0 rest acc hno hb] at hl
    rcases List.mem_cons.mp hl with rfl | hl2
    · exact hacc c (List.mem_reverse.mp hc)
    · by_cases hr : rest = []
      · rw [if_pos hr] at hl2
        simp at hl2
      · rw [if_neg hr] at hl2
        exact ih (by simp) l hl2 c hc
  | case4 c0 rest acc hno hb ih =>
    intro hacc l hl c hc
    rw [splitlinesGo_cons_clean c0 rest acc (by simpa using hb)] at hl
    have hacc' : ∀ x ∈ c0 :: acc, isPyLineBreak x = false := by
      intro x hx
      rcases List.mem_cons.mp hx with rfl | hx2
      · simpa using hb
      · exact hacc x hx2
    exact ih hacc' l hl c hc

/-- Every line produced by `pySplitlines` is free of line-break
characters. -/
theorem pySplitlines_clean (s : PyStr) :
    ∀ l ∈ pySplitlines s, ∀ c ∈ l, isPyLineBreak c = false := by
  unfold pySplitlines
  by_cases h : s = []
  · simp [h]
  · rw [if_neg h]
    exact splitlinesGo_all_clean s [] (by simp)

/-- Joining clean lines with `'\n'` and appending a final `'\n'` is
inverted exactly by `pySplitlines`. -/
theorem pySplitlines_joinNL : ∀ ls : List PyStr, ls ≠ [] →
    (∀ l ∈ ls, ∀ c ∈ l, isPyLineBreak c = false) →
    pySplitlines (joinNL ls ++ ['\n']) = ls := by
  intro ls
  induction ls with
  | nil => exact fun hne _ => absurd rfl hne
  | cons l ls' ih =>
    intro _ hclean
    cases ls' with
    | nil =>
      show pySplitlines (l ++ ['\n']) = [l]
      unfold pySplitlines
      rw [if_neg (by simp)]
      rw [show (l ++ ['\n']) = l ++ '\n' :: [] from rfl,
        splitlinesGo_clean_append l (hclean l (by simp)) [] []]
      simp
    | cons l2 ls'' =>
      have hclean' : ∀ x ∈ l2 :: ls'', ∀ c ∈ x, isPyLineBreak c = false :=
        fun x hx => hclean x (by simp [hx])
      have hjoin : joinNL (l :: l2 :: ls'')
          = l ++ '\n' :: joinNL (l2 :: ls'') := rfl
      rw [hjoin]
      rw [show (l ++ '\n' :: joinNL (l2 :: ls'')) ++ ['\n']
          = l ++ '\n' :: (joinNL (l2 :: ls'') ++ ['\n']) from by simp]
      unfold pySplitlines
      rw [if_neg (by simp)]
      rw [splitlinesGo_clean_append l (hclean l (by simp))
        (joinNL (l2 :: ls'') ++ ['\n']) []]
      have hne2 : joinNL (l2 :: ls'') ++ ['\n'] ≠ [] := by simp
      rw [if_neg hne2]
      have hX : splitlinesGo (joinNL (l2 :: ls'') ++ ['\n']) []
          = l2 :: ls'' := by
        have h2 := ih (by simp) hclean'
        unfold pySplitlines at h2
        rw [if_neg hne2] at h2
        exact h2
      rw [hX]
      simp

/-- Filtering with a predicate after keeping only its complement leaves
nothing. -/
theorem filter_not_filter (p : PyStr → Bool) (l : List PyStr) :
    (l.filter (fun x => ! p x)).filter p = [] := by
  induction l with
  | nil => rfl
  | cons x l' ih =>
    by_cases hx : p x = true <;> simp [List.filter_cons, hx, ih]

/-- Filtering by the complement predicate is idempotent. -/
theorem filter_not_idem (p : PyStr → Bool) (l : List PyStr) :
    (l.filter (fun x => ! p x)).filter (fun x => ! p x)
      = l.filter (fun x => ! p x) := by
  induction l with
  | nil => rfl
  | cons x l' ih =>
    by_cases hx : p x = true <;> simp [List.filter_cons, hx, ih]

/-- The last character of `'\n'.join(xs ++ [y])` is the last character
of `y`. -/
theorem joinNL_append_getLast (xs : List PyStr) (y : PyStr) (hy : y ≠ []) :
    (joinNL (xs ++ [y])).getLast? = y.getLast? := by
  induction xs with
  | nil => rfl
  | cons x xs' ih =>
    have hx : joinNL ((x :: xs') ++ [y])
        = x ++ '\n' :: joinNL (xs' ++ [y]) := by
      cases xs' <;> rfl
    rw [hx, List.getLast?_append_cons]
    cases hJ : joinNL (xs' ++ [y]) with
    | nil =>
      rw [hJ] at ih
      simp only [List.getLast?_nil] at ih
      exact absurd (List.getLast?_eq_none_iff.mp ih.symm) hy
    | cons a J' =>
      rw [hJ] at ih
      rw [show ('\n' :: a :: J') = ['\n'] ++ (a :: J') from rfl,
        List.getLast?_append_of_ne_nil _ (by simp)]
      exact ih

/-- C4: rewriting `/etc/default/grub` contents that contain an existing
`GRUB_CMDLINE_LINUX_DEFAULT` line leaves exactly one line starting with
`GRUB_CMDLINE_LINUX_DEFAULT` — the fixed
`GRUB_CMDLINE_LINUX_DEFAULT="biosdevname=0 net.ifnames=0 consoleblank=0
systemd.show_status=true"` — preserves all other lines in their
original order, and ends in a single trailing newline. -/
theorem set_grub_cmdline_properties (text : PyStr)
    (h : ∃ line ∈ pySplitlines text,
      grubCmdlineKey.isPrefixOf line = true) :
    (pySplitlines (set_grub_cmdline_config kernel_params text)).filter
        (fun line => grubCmdlineKey.isPrefixOf line)
      = [newGrubLine kernel_params]
    ∧ (pySplitlines (set_grub_cmdline_config kernel_params text)).filter
        (fun line => ! grubCmdlineKey.isPrefixOf line)
      = (pySplitlines text).filter
          (fun line => ! grubCmdlineKey.isPrefixOf line)
    ∧ ∃ t, set_grub_cmdline_config kernel_params text = t ++ ['\n']
        ∧ t.getLast? ≠ some '\n' := by
  have hngClean : ∀ c ∈ newGrubLine kernel_params,
      isPyLineBreak c = false := by decide
  have hngKey : grubCmdlineKey.isPrefixOf (newGrubLine kernel_params)
      = true := by decide
  have hlines : pySplitlines (set_grub_cmdline_config kernel_params text)
      = (pySplitlines text).filter
          (fun line => ! grubCmdlineKey.isPrefixOf line)
        ++ [newGrubLine kernel_params] := by
    show pySplitlines (joinNL ((pySplitlines text).filter
        (fun line => ! grubCmdlineKey.isPrefixOf line)
      ++ [newGrubLine kernel_params]) ++ ['\n']) = _
    apply pySplitlines_joinNL
    · simp
    · intro l hl c hc
      rcases List.mem_append.mp hl with h1 | h2
      · exact pySplitlines_clean text l (List.mem_filter.mp h1).1 c hc
      · rw [List.mem_singleton.mp h2] at hc
        exact hngClean c hc
  refine ⟨?_, ?_, ?_⟩
  · rw [hlines, List.filter_append,
      filter_not_filter (fun line => grubCmdlineKey.isPrefixOf line)]
    simp [List.filter_cons, hngKey]
  · rw [hlines, List.filter_append,
      filter_not_idem (fun line => grubCmdlineKey.isPrefixOf line)]
    simp [List.filter_cons, hngKey]
  · refine ⟨joinNL ((pySplitlines text).filter
        (fun line => ! grubCmdlineKey.isPrefixOf line)
      ++ [newGrubLine kernel_params]), rfl, ?_⟩
    rw [joinNL_append_getLast _ _ (by decide)]
    decide

/-- Witness for C4: the rewrite of a typical `/etc/default/grub` that
already sets `GRUB_CMDLINE_LINUX_DEFAULT`. -/
theorem set_grub_cmdline_properties_witness :
    (pySplitlines (set_grub_cmdline_config kernel_params
        sampleGrubText)).filter
        (fun line => grubCmdlineKey.isPrefixOf line)
      = [newGrubLine kernel_params]
    ∧ (pySplitlines (set_grub_cmdline_config kernel_params
        sampleGrubText)).filter
        (fun line => ! grubCmdlineKey.isPrefixOf line)
      = (pySplitlines sampleGrubText).filter
          (fun line => ! grubCmdlineKey.isPrefixOf line)
    ∧ ∃ t, set_grub_cmdline_config kernel_params sampleGrubText
        = t ++ ['\n'] ∧ t.getLast? ≠ some '\n' :=
  set_grub_cmdline_properties sampleGrubText
    ⟨"GRUB_CMDLINE_LINUX_DEFAULT=\"quiet\"".data, by decide, by decide⟩

end GrubStepRunner
